import Mathlib

/-!
Verification of the gee-rpc library (github.com/yqchilde/gee-rpc).

This file gives a shallow embedding, in Lean 4, of the parts of the Go
source that the specification's claims are about:

* the client bookkeeping (`src/client.go`): the pending-call table, the
  sequence counter, `registerCall`, `removeCall`, `terminateCalls`,
  `Close`, and `parseOptions` (together with the earlier-stage variant of
  `parseOptions` found in `src/unnamed/part_003`);
* the server request handler (`src/server.go`): `handleRequest` with its
  `called`/`sent` signalling and the handle-timeout select, and
  `findService`;
* the reflective service registry (`src/service.go`): `registerMethods`
  and `isExportedOrBuiltinType`;
* the load-balancing discovery (`src/unnamed/part_006`):
  `MultiServersDiscovery.Get` and `GetAll`.

Go maps are embedded as association lists with map-like insert/delete
(insert removes any previous binding of the key, delete removes the key),
so that lookups behave exactly as Go map indexing does.  Machine integers
(`uint64` sequence numbers) are embedded as `Nat` with explicit reduction
modulo `2 ^ 64` at the single point where the Go code increments one.
Channel synchronisation in `handleRequest` is deterministic once the
relative order of the invocation's completion and the timer expiry is
fixed, so it is embedded as a pure function of that order.
-/

/-! ## Go errors

The client compares its sentinel `ErrShutdown` by identity; an inductive
with a dedicated constructor models that: two `errShutdown` values are the
same value, and no `errStr` message coincides with it. -/

/-- Errors produced by the embedded code: the sentinel `ErrShutdown`
("connection is shut down") from `src/client.go`, or an ordinary error
value carrying a message. -/
inductive GoError where
  | errShutdown
  | errStr (msg : String)
deriving DecidableEq, Repr

/-! ## Go map operations on association lists -/

/-- Embedding of Go map assignment `m[k] = v`: any previous binding of `k`
is dropped and the new one is put in front, so `mapLookup` finds it. -/
def mapInsert [DecidableEq κ] (k : κ) (v : α) (m : List (κ × α)) : List (κ × α) :=
  (k, v) :: m.filter (fun p => p.1 ≠ k)

/-- Embedding of Go `delete(m, k)`. -/
def mapDelete [DecidableEq κ] (k : κ) (m : List (κ × α)) : List (κ × α) :=
  m.filter (fun p => p.1 ≠ k)

/-- Embedding of Go map indexing `m[k]` (the zero value becoming `none`). -/
def mapLookup [DecidableEq κ] (k : κ) : List (κ × α) → Option α
  | [] => none
  | (k', v) :: t => if k = k' then some v else mapLookup k t

/-! ## Client state (`src/client.go`) -/

/-- The observable state of a `Call` (`src/client.go`): the assigned
sequence number, the `Error` field, and how many completion signals
`done()` has delivered on its `Done` channel (`doneCount`). -/
structure Call where
  seq : Nat
  error : Option GoError
  doneCount : Nat
deriving DecidableEq, Repr

/-- The state of a `Client` (`src/client.go`): the `seq` counter (a Go
`uint64`), the `pending` table `Seq -> Call`, the two booleans `closing`
and `shutdown`, and whether the codec has been closed (the effect of
`client.c.Close()`). -/
structure Client where
  seq : Nat
  pending : List (Nat × Call)
  closing : Bool
  shutdown : Bool
  codecClosed : Bool
deriving DecidableEq, Repr

/-- Modulus of the Go `uint64` sequence counter. -/
def U64 : Nat := 2 ^ 64

/-- Embedding of `newClientCodec` (`src/client.go`): `seq` starts at 1
(0 marks an invalid call) and `pending` starts empty. -/
def newClientCodec : Client :=
  { seq := 1, pending := [], closing := false, shutdown := false, codecClosed := false }

/-- Embedding of `Client.registerCall` (`src/client.go`): if `closing` or
`shutdown` is set it fails with `ErrShutdown` and changes nothing;
otherwise it stores the current counter in `call.Seq`, inserts the call
into `pending` under that key, and increments the `uint64` counter. -/
def registerCall (c : Client) (call : Call) : Client × Except GoError Nat :=
  if c.closing || c.shutdown then
    (c, .error .errShutdown)
  else
    let call' := { call with seq := c.seq }
    ({ c with pending := mapInsert c.seq call' c.pending, seq := (c.seq + 1) % U64 },
     .ok c.seq)

/-- Embedding of `Client.removeCall` (`src/client.go`): look the call up
by `seq`, delete that key from `pending`, and return the call (or `none`
when no call was pending under `seq`). -/
def removeCall (c : Client) (s : Nat) : Client × Option Call :=
  ({ c with pending := mapDelete s c.pending }, mapLookup s c.pending)

/-- Embedding of `Client.terminateCalls` (`src/client.go`): set
`shutdown`, and for every pending call set its `Error` to `err` and
deliver one completion signal.  The pending table's entries are updated
in place; no key is deleted. -/
def terminateCalls (c : Client) (err : GoError) : Client :=
  { c with
    shutdown := true,
    pending := c.pending.map
      (fun p => (p.1, { p.2 with error := some err, doneCount := p.2.doneCount + 1 })) }

/-- Embedding of `Client.Close` (`src/client.go`): if `closing` is
already set, return `ErrShutdown` and change nothing; otherwise set
`closing` and close the codec (the codec's own close result is modelled
as success). -/
def Close (c : Client) : Client × Option GoError :=
  if c.closing then
    (c, some .errShutdown)
  else
    ({ c with closing := true, codecClosed := true }, none)

/-! ## Option parsing (`src/client.go` and `src/unnamed/part_003`) -/

/-- Embedding of the `Option` struct (`src/server.go`); named `RpcOption`
because `Option` is taken in Lean.  Durations are in nanoseconds. -/
structure RpcOption where
  magicNumber : Nat
  codecType : String
  connectTimeout : Nat
  handleTimeout : Nat
deriving DecidableEq, Repr

/-- The protocol magic number `0x5add9a7` (`src/server.go`). -/
def MagicNumber : Nat := 0x5add9a7

/-- Embedding of `DefaultOption` (`src/server.go`): the magic number, the
gob codec tag, and a 10-second connect timeout. -/
def DefaultOption : RpcOption :=
  { magicNumber := MagicNumber
    codecType := "application/gob"
    connectTimeout := 10 * 1000000000
    handleTimeout := 0 }

/-- Embedding of `parseOptions` (`src/client.go`, the final-stage client).
The argument list models the Go variadic `opts ...*Option`, with `none`
for a nil pointer.  Zero options or a nil first option yield the default;
more than one (non-nil-first) option is an error; a single option keeps
all its fields except that an empty `CodecType` is replaced by the
default's. -/
def parseOptions (opts : List (Option RpcOption)) : Except String RpcOption :=
  match opts with
  | [] => .ok DefaultOption
  | none :: _ => .ok DefaultOption
  | [some o] =>
      .ok { o with codecType := if o.codecType = "" then DefaultOption.codecType else o.codecType }
  | some _ :: _ :: _ => .error "number of options is more than 1"

/-- Embedding of the earlier-stage `parseOptions` (`src/unnamed/part_003`,
lines 154-168): identical to `parseOptions` except that it always
overwrites the supplied option's `MagicNumber` with the default's. -/
def parseOptionsV1 (opts : List (Option RpcOption)) : Except String RpcOption :=
  match opts with
  | [] => .ok DefaultOption
  | none :: _ => .ok DefaultOption
  | [some o] =>
      .ok { o with
            magicNumber := DefaultOption.magicNumber,
            codecType := if o.codecType = "" then DefaultOption.codecType else o.codecType }
  | some _ :: _ :: _ => .error "number of options is more than 1"

/-! ## Rendering Go durations

`handleRequest` formats its timeout message with `fmt.Sprintf("... %s", timeout)`,
which calls the Go standard library's `time.Duration.String`.  The
following functions model that rendering for nonnegative durations
(nanosecond counts). -/

/-- Drop trailing `'0'` characters (the Go renderer omits trailing zeros
of a fractional part). -/
def stripTrailingZeros (l : List Char) : List Char :=
  (l.reverse.dropWhile (fun c => c = '0')).reverse

/-- The fractional part produced by Go's `fmtFrac v prec`: the low `prec`
decimal digits of `v`, left-padded with zeros, trailing zeros removed,
preceded by `"."` when anything remains. -/
def fracPart (v prec : Nat) : String :=
  let ds := Nat.toDigits 10 (v % 10 ^ prec)
  let padded := List.replicate (prec - ds.length) '0' ++ ds
  let stripped := stripTrailingZeros padded
  if stripped.isEmpty then "" else "." ++ String.mk stripped

/-- Model of Go `time.Duration.String` for a nonnegative duration of `d`
nanoseconds: `"0s"`, sub-second units `ns`/`µs`/`ms`, and otherwise
seconds with optional minutes and hours. -/
def goDurationString (d : Nat) : String :=
  if d = 0 then "0s"
  else if d < 1000 then toString d ++ "ns"
  else if d < 1000000 then toString (d / 1000) ++ fracPart d 3 ++ "µs"
  else if d < 1000000000 then toString (d / 1000000) ++ fracPart d 6 ++ "ms"
  else
    let frac := fracPart d 9
    let secs := d / 1000000000
    let s := toString (secs % 60) ++ frac ++ "s"
    let mins := secs / 60
    if mins = 0 then s
    else
      let s := toString (mins % 60) ++ "m" ++ s
      let hours := mins / 60
      if hours = 0 then s else toString hours ++ "h" ++ s

/-! ## The server's request handler (`src/server.go`) -/

/-- One response frame written by the server for a request: the
`Header.Error` string and whether the body is the `invalidRequest`
sentinel (`struct{}{}`).  `handleRequest` in the source only ever writes
frames with the sentinel body. -/
structure Frame where
  error : String
  invalidBody : Bool
deriving DecidableEq, Repr

/-- The timeout message `handleRequest` formats:
`fmt.Sprintf("rpc server: request handle timeout: except within %s", timeout)`. -/
def handleTimeoutMsg (d : Nat) : String :=
  "rpc server: request handle timeout: except within " ++ goDurationString d

/-- Outcome of one `handleRequest` run: the response frames written for
the request (in order) and whether `handleRequest` itself returns
(`false` means it blocks forever on a channel receive, so the connection's
wait group never drains). -/
structure HandleResult where
  frames : List Frame
  handlerReturns : Bool
deriving DecidableEq, Repr

/-- Embedding of `Server.handleRequest` (`src/server.go`, lines 150-179).

The invocation goroutine calls the method, which finishes after
`callTime` with result `callErr` (`none` for a nil error), signals
`called`, and - only when `callErr` is a failure - writes one error
frame and signals `sent`.

The main body: with `timeout = 0` it receives `called` and then `sent`;
with `timeout > 0` it selects between the timer and `called` (the timer
wins when the invocation has not signalled completion within the
timeout), writing a timeout frame when the timer wins.  On the timeout
path nobody ever receives `called`, so the goroutine stays blocked before
its write; on the success path nobody ever sends `sent`, so the main body
stays blocked after `called`. -/
def handleRequest (timeout callTime : Nat) (callErr : Option String) : HandleResult :=
  if timeout = 0 ∨ callTime < timeout then
    match callErr with
    | some e => { frames := [{ error := e, invalidBody := true }], handlerReturns := true }
    | none => { frames := [], handlerReturns := false }
  else
    { frames := [{ error := handleTimeoutMsg timeout, invalidBody := true }],
      handlerReturns := true }

/-! ## The service registry (`src/service.go`) -/

/-- The reflective kind of a Go type, as far as the registry inspects it
(`reflect.Kind`): pointer, map, slice, or anything else. -/
inductive GoKind where
  | ptr
  | mapKind
  | slice
  | otherKind
deriving DecidableEq, Repr

/-- A Go type as seen through `reflect.Type` by the registry:
`Name()` (empty for unnamed types such as pointers, maps and slices),
`PkgPath()` (empty for builtin and unnamed types), and `Kind()`. -/
structure GoType where
  name : String
  pkgPath : String
  kind : GoKind
deriving DecidableEq, Repr

/-- The Go `error` interface type, i.e.
`reflect.TypeOf((*error)(nil)).Elem()`: a builtin named type. -/
def errorType : GoType := { name := "error", pkgPath := "", kind := .otherKind }

/-- Embedding of `go/ast.IsExported`: the first character of the name is
upper case (false for the empty name of an unnamed type). -/
def isExported (s : String) : Bool :=
  match s.data with
  | [] => false
  | c :: _ => c.isUpper

/-- Embedding of `isExportedOrBuiltinType` (`src/service.go`, lines
97-99): the type's name is exported, or its package path is empty. -/
def isExportedOrBuiltinType (t : GoType) : Bool :=
  isExported t.name || t.pkgPath = ""

/-- The reflected signature of one method of the receiver: its name, its
input types including the receiver (`Type.In(0)` is the receiver, so
`NumIn` counts it), and its output types. -/
structure MethodSig where
  name : String
  ins : List GoType
  outs : List GoType
deriving DecidableEq, Repr

/-- The eligibility filter of `registerMethods` (`src/service.go`, lines
72-94), mirroring its three `continue` checks in order: `NumIn() == 3 &&
NumOut() == 1`, then `Out(0)` is the `error` type, then both `In(1)` and
`In(2)` are exported or builtin.  No check on the reply type's kind is
performed. -/
def methodEligible (m : MethodSig) : Bool :=
  match m.ins, m.outs with
  | [_, argType, replyType], [out] =>
      out = errorType && isExportedOrBuiltinType argType && isExportedOrBuiltinType replyType
  | _, _ => false

/-- Embedding of `registerMethods` (`src/service.go`): the method map
holds exactly the eligible methods, keyed by name; ineligible methods are
skipped without failing. -/
def registerMethods (ms : List MethodSig) : List (String × MethodSig) :=
  (ms.filter methodEligible).map (fun m => (m.name, m))

/-- The eligibility rule as the specification words it, for comparison
with `methodEligible`: the spec additionally requires the reply (second)
input type to be a pointer. -/
def methodEligibleSpec (m : MethodSig) : Bool :=
  match m.ins, m.outs with
  | [_, argType, replyType], [out] =>
      out = errorType && isExportedOrBuiltinType argType && isExportedOrBuiltinType replyType
        && replyType.kind = .ptr
  | _, _ => false

/-! ## Service lookup (`src/server.go`) -/

/-- A registered service: its name and its method map. -/
structure Service where
  sname : String
  methods : List (String × MethodSig)
deriving DecidableEq, Repr

/-- Index of the last occurrence of `c` in `l` (embedding of
`strings.LastIndex(s, ".")`, which returns -1, here `none`, when absent). -/
def lastIndexOf (l : List Char) (c : Char) : Option Nat :=
  match l with
  | [] => none
  | x :: xs =>
      match lastIndexOf xs c with
      | some i => some (i + 1)
      | none => if x = c then some 0 else none

/-- Embedding of `Server.findService` (`src/server.go`, lines 198-216):
split `ServiceMethod` at the last dot; no dot, an unknown service, or an
unknown method each produce the corresponding error; otherwise return the
service and the method descriptor. -/
def findService (serviceMap : List (String × Service)) (serviceMethod : String) :
    Except String (Service × MethodSig) :=
  match lastIndexOf serviceMethod.data '.' with
  | none => .error ("rpc server: service/method request ill-formed: " ++ serviceMethod)
  | some dot =>
      let serviceName := String.mk (serviceMethod.data.take dot)
      let methodName := String.mk (serviceMethod.data.drop (dot + 1))
      match mapLookup serviceName serviceMap with
      | none => .error ("rpc server: can't find service " ++ serviceName)
      | some svc =>
          match mapLookup methodName svc.methods with
          | none => .error ("rpc server: can't find method " ++ methodName)
          | some mt => .ok (svc, mt)

/-! ## Load-balancing discovery (`src/unnamed/part_006`) -/

/-- The select modes (`SelectMode` is a Go `int`): `RandomSelect = 0`,
`RoundRobinSelect = 1`; any other value is unsupported. -/
def RandomSelect : Nat := 0

/-- `RoundRobinSelect` (`iota` successor of `RandomSelect`). -/
def RoundRobinSelect : Nat := 1

/-- State of a `MultiServersDiscovery`: the server list and the
round-robin index.  The PRNG is not part of the state here; each `Get` is
instead passed the draw the PRNG would produce (see `dGet`). -/
structure MultiServersDiscovery where
  servers : List String
  index : Nat
deriving DecidableEq, Repr

/-- Embedding of `MultiServersDiscovery.Get` (`src/unnamed/part_006`,
lines 67-85).  `rnd % n` models the value of `d.r.Intn(n)` (the Go call
returns a uniform value in `[0, n)`; taking an arbitrary `rnd` modulo `n`
ranges over exactly those values).  An empty server list errors before
the mode switch; round-robin reads `servers[index % n]` and stores
`(index + 1) % n`; an unrecognised mode errors. -/
def dGet (d : MultiServersDiscovery) (mode : Nat) (rnd : Nat) :
    MultiServersDiscovery × Except String String :=
  let n := d.servers.length
  if n = 0 then (d, .error "rpc discovery: no available servers")
  else if mode = RandomSelect then (d, .ok (d.servers.getD (rnd % n) ""))
  else if mode = RoundRobinSelect then
    ({ d with index := (d.index + 1) % n }, .ok (d.servers.getD (d.index % n) ""))
  else (d, .error "rpc discovery: not supported select mode")

/-- Embedding of the `copy(servers, d.servers)` into a freshly `make`d
slice in `GetAll`: the copy is rebuilt element by element, so the caller's
slice shares no structure with the discovery's list. -/
def copySlice (l : List String) : List String :=
  l.foldr (fun x acc => x :: acc) []

/-- Embedding of `MultiServersDiscovery.GetAll` (`src/unnamed/part_006`,
lines 88-95): return a fresh copy of the server list and leave the
discovery untouched. -/
def dGetAll (d : MultiServersDiscovery) : MultiServersDiscovery × List String :=
  (d, copySlice d.servers)

/-! ## Helper lemmas -/

/-- Deleting a key from the embedded map makes a lookup of that key fail. -/
theorem lookup_mapDelete [DecidableEq κ] (m : List (κ × α)) (s : κ) :
    mapLookup s (mapDelete s m) = none := by
  induction m with
  | nil => rfl
  | cons p t ih =>
      rcases p with ⟨k, v⟩
      by_cases h : k = s
      · subst h
        simpa [mapDelete, List.filter_cons] using ih
      · have hne : s ≠ k := Ne.symm h
        simp only [mapDelete, List.filter_cons] at ih ⊢
        simpa [h, mapLookup, hne, decide_not] using ih

/-! ## Claims -/

/-- Claim C1 (code bug): on a successful method invocation the handler is
supposed to write exactly one response frame, but `handleRequest` writes
none at all - only the error branch of the invocation goroutine writes -
and the handler then blocks forever waiting for the `sent` signal that
nobody sends.  The hypothesis selects the non-timeout paths (no handler
timeout configured, or the invocation finished in time); `none` is a nil
method error. -/
theorem handleRequest_success_writes_no_frame (d t : Nat) (h : d = 0 ∨ t < d) :
    (handleRequest d t none).frames = [] ∧ (handleRequest d t none).handlerReturns = false := by
  simp [handleRequest, if_pos h]

/-- Witness for `handleRequest_success_writes_no_frame`: a successful
invocation under an unbounded handler (`HandleTimeout = 0`) produces no
response frame and leaves the handler blocked. -/
theorem handleRequest_success_writes_no_frame_w :
    (handleRequest 0 5 none).frames = [] ∧ (handleRequest 0 5 none).handlerReturns = false :=
  handleRequest_success_writes_no_frame 0 5 (Or.inl rfl)

/-- The tampered option of the magic-number test
(`src/unnamed/part_002`): `MagicNumber` 123456 with the gob codec tag. -/
def tamperedOption : RpcOption :=
  { magicNumber := 123456, codecType := "application/gob", connectTimeout := 0, handleTimeout := 0 }

/-- Counterexample to claim C4 as stated: the earlier-stage
`parseOptions` of `src/unnamed/part_003` does overwrite the supplied
option's `MagicNumber` with the default's, so "never overwritten by the
default" fails on that cited code. -/
theorem parseOptionsV1_overwrites_magic :
    parseOptionsV1 [some tamperedOption]
      = .ok { tamperedOption with magicNumber := DefaultOption.magicNumber }
    ∧ tamperedOption.magicNumber ≠ DefaultOption.magicNumber :=
  ⟨rfl, by decide⟩

/-- Claim C4 (amended): `parseOptions` of `src/client.go` returns the
default for zero options or a nil first option, errors on more than one
(non-nil-first) option, and for a single option substitutes the default
codec tag exactly when the supplied one is empty while keeping
`MagicNumber` as-is; the earlier-stage `parseOptions` of
`src/unnamed/part_003` instead always replaces `MagicNumber` with the
default's. -/
theorem parseOptions_spec (o : RpcOption) (rest : List (Option RpcOption)) :
    parseOptions [] = .ok DefaultOption
    ∧ parseOptions (none :: rest) = .ok DefaultOption
    ∧ (rest ≠ [] → parseOptions (some o :: rest) = .error "number of options is more than 1")
    ∧ parseOptions [some o]
        = .ok { o with codecType := if o.codecType = "" then DefaultOption.codecType else o.codecType }
    ∧ (parseOptions [some o]).toOption.map RpcOption.magicNumber = some o.magicNumber
    ∧ (parseOptionsV1 [some o]).toOption.map RpcOption.magicNumber = some DefaultOption.magicNumber := by
  refine ⟨rfl, rfl, ?_, rfl, rfl, rfl⟩
  intro h
  match rest with
  | [] => exact absurd rfl h
  | r :: rs => rfl

/-- Witness for `parseOptions_spec`: two supplied options are rejected. -/
theorem parseOptions_spec_w :
    parseOptions [some tamperedOption, some tamperedOption]
      = .error "number of options is more than 1" :=
  (parseOptions_spec tamperedOption [some tamperedOption]).2.2.1 (List.cons_ne_nil _ _)

/-- A call record whose fields are not yet assigned (`Go`'s fresh `Call`
before `registerCall` runs). -/
def blankCall : Call := { seq := 0, error := none, doneCount := 0 }

/-- Claim C8: the first `Close` sets `closing` and closes the codec; a
`Close` on an already-closing client returns the sentinel `ErrShutdown`
and changes no state; and `registerCall` on a closing or shut-down client
fails with the same sentinel and leaves the client (pending table and
sequence counter included) unchanged. -/
theorem close_register_shutdown_spec (c : Client) (call : Call) :
    (c.closing = false → Close c = ({ c with closing := true, codecClosed := true }, none))
    ∧ (c.closing = true → Close c = (c, some .errShutdown))
    ∧ (c.closing = true ∨ c.shutdown = true → registerCall c call = (c, .error .errShutdown)) := by
  refine ⟨fun h => ?_, fun h => ?_, fun h => ?_⟩
  · simp [Close, h]
  · simp [Close, h]
  · rcases h with h | h <;> simp [registerCall, h]

/-- Witness for `close_register_shutdown_spec`: a fresh client closes
once; closing it again yields `ErrShutdown`; registering on the closed
client yields `ErrShutdown` with the state untouched. -/
theorem close_register_shutdown_spec_w :
    Close newClientCodec = ({ newClientCodec with closing := true, codecClosed := true }, none)
    ∧ Close { newClientCodec with closing := true }
        = ({ newClientCodec with closing := true }, some .errShutdown)
    ∧ registerCall { newClientCodec with closing := true } blankCall
        = ({ newClientCodec with closing := true }, .error .errShutdown) :=
  ⟨(close_register_shutdown_spec newClientCodec blankCall).1 rfl,
   (close_register_shutdown_spec { newClientCodec with closing := true } blankCall).2.1 rfl,
   (close_register_shutdown_spec { newClientCodec with closing := true } blankCall).2.2 (Or.inl rfl)⟩

/-- Claim C10: `GetAll` returns the discovery unchanged together with a
copy of the server list that equals it element for element; because the
returned state is the original one and the copy is rebuilt from scratch
(`copySlice`, the embedding of `make` + `copy`), any later mutation of
the returned list is a pure value operation that cannot reach the
discovery, and a later `Get` or `GetAll` observes the same servers. -/
theorem dGetAll_spec (d : MultiServersDiscovery) :
    (dGetAll d).1 = d
    ∧ (dGetAll d).2 = d.servers
    ∧ copySlice d.servers = d.servers
    ∧ (dGetAll ((dGetAll d).1)).2 = d.servers
    ∧ (∀ m r, dGet ((dGetAll d).1) m r = dGet d m r) := by
  have hcopy : ∀ l : List String, copySlice l = l := by
    intro l
    induction l with
    | nil => rfl
    | cons x t ih => rw [show copySlice (x :: t) = x :: copySlice t from rfl, ih]
  exact ⟨rfl, hcopy _, hcopy _, hcopy _, fun m r => rfl⟩

/-- A client with one uncompleted pending call under seq 1 (as after one
`send` whose response has not arrived). -/
def cexClient : Client :=
  { seq := 2, pending := [(1, { seq := 1, error := none, doneCount := 0 })],
    closing := false, shutdown := false, codecClosed := false }

/-- Counterexample to claim C2 as stated: after `terminateCalls`
completes every pending call, the completed call is still in the pending
table - `terminateCalls` never deletes keys - so "no completed Call
remains in the pending table" fails. -/
theorem terminateCalls_keeps_completed_in_pending :
    (terminateCalls cexClient (.errStr "read error")).pending
      = [(1, { seq := 1, error := some (.errStr "read error"), doneCount := 1 })]
    ∧ (terminateCalls cexClient (.errStr "read error")).pending ≠ [] := by
  refine ⟨rfl, ?_⟩
  simp [terminateCalls, cexClient]

/-- Claim C2 (amended): calls are removed from the pending table only by
`removeCall` (the receive loop, the send-error path, and cancellation all
go through it), and such a removal is final - the key is gone and a
second removal returns nothing.  `terminateCalls` sets `shutdown` and
completes every pending call with the receive error exactly once, but it
leaves the table's keys unchanged; because `shutdown` is then set, no
further call can enter the table. -/
theorem pending_removal_discipline (c : Client) (e : GoError) (s : Nat) (call : Call) :
    (terminateCalls c e).shutdown = true
    ∧ (terminateCalls c e).pending.map Prod.fst = c.pending.map Prod.fst
    ∧ (∀ k cl, (k, cl) ∈ c.pending →
        (k, { cl with error := some e, doneCount := cl.doneCount + 1 })
          ∈ (terminateCalls c e).pending)
    ∧ mapLookup s (removeCall c s).1.pending = none
    ∧ (removeCall (removeCall c s).1 s).2 = none
    ∧ registerCall (terminateCalls c e) call = (terminateCalls c e, .error .errShutdown) := by
  refine ⟨rfl, ?_, fun k cl h => ?_, ?_, ?_, ?_⟩
  · simp [terminateCalls, List.map_map, Function.comp]
  · exact List.mem_map_of_mem _ h
  · exact lookup_mapDelete c.pending s
  · exact lookup_mapDelete c.pending s
  · simp [registerCall, terminateCalls]

/-- Witness for `pending_removal_discipline`: on the one-pending-call
client, the completed call is found (completed exactly once) in the
table after `terminateCalls`, and a second `removeCall` of seq 1 yields
nothing. -/
theorem pending_removal_discipline_w :
    (1, { seq := 1, error := some (.errStr "read error"), doneCount := 1 })
        ∈ (terminateCalls cexClient (.errStr "read error")).pending
    ∧ (removeCall (removeCall cexClient 1).1 1).2 = none :=
  ⟨(pending_removal_discipline cexClient (.errStr "read error") 1 blankCall).2.2.1 1
      { seq := 1, error := none, doneCount := 0 } (by simp [cexClient]),
   (pending_removal_discipline cexClient (.errStr "read error") 1 blankCall).2.2.2.2.1⟩

/-- Claim C5: with `HandleTimeout = d > 0` and an invocation that has not
signalled completion within `d`, `handleRequest` writes exactly one
response frame, whose `Header.Error` is the timeout template applied to
the rendered duration, and returns; with `HandleTimeout = 0` it writes no
timeout response - only the invocation's own error frame, if any - and
returns only once the `sent` signal arrives (so it blocks on a successful
invocation). -/
theorem handleRequest_timeout_spec (d t : Nat) (e : Option String) :
    (0 < d → ¬ t < d →
      (handleRequest d t e).frames
        = [{ error := "rpc server: request handle timeout: except within "
              ++ goDurationString d, invalidBody := true }]
      ∧ (handleRequest d t e).handlerReturns = true)
    ∧ ((handleRequest 0 t e).frames
        = (e.map (fun m => ({ error := m, invalidBody := true } : Frame))).toList
      ∧ (handleRequest 0 t e).handlerReturns = e.isSome) := by
  constructor
  · intro hd ht
    have hcond : ¬(d = 0 ∨ t < d) := by omega
    simp [handleRequest, if_neg hcond, handleTimeoutMsg]
  · have hcond : (0 = 0 ∨ t < 0) := Or.inl rfl
    cases e <;> simp [handleRequest, if_pos hcond]

/-- Witness for `handleRequest_timeout_spec`: a 1-second handle timeout
against an invocation finishing after 2 seconds writes exactly the frame
"rpc server: request handle timeout: except within 1s". -/
theorem handleRequest_timeout_spec_w :
    (handleRequest 1000000000 2000000000 none).frames
      = [{ error := "rpc server: request handle timeout: except within 1s",
           invalidBody := true }] :=
  ((handleRequest_timeout_spec 1000000000 2000000000 none).1 (by decide) (by decide)).1

/-- Run `n` registrations of fresh calls against the client, collecting
the assigned sequence numbers in order (the trace of `client.send`'s
`registerCall` step over a run of `n` calls). -/
def registerN : Nat → Client → Client × List Nat
  | 0, c => (c, [])
  | n + 1, c =>
      let r1 := registerCall c blankCall
      match r1.2 with
      | .ok s => ((registerN n r1.1).1, s :: (registerN n r1.1).2)
      | .error _ => (r1.1, [])

/-- On an open client, a run of `n` registrations assigns the `n`
consecutive sequence numbers starting at the current counter, as long as
the `uint64` counter does not wrap. -/
theorem registerN_seqs (n : Nat) : ∀ c : Client, c.closing = false → c.shutdown = false →
    c.seq + n ≤ U64 → (registerN n c).2 = List.range' c.seq n := by
  induction n with
  | zero => intro c _ _ _; rfl
  | succ n ih =>
      intro c hc hs hle
      have hreg : registerCall c blankCall
          = ({ c with
                pending := mapInsert c.seq ({ blankCall with seq := c.seq }) c.pending,
                seq := (c.seq + 1) % U64 },
             Except.ok c.seq) := by
        simp [registerCall, hc, hs]
      simp only [registerN, hreg]
      rw [List.range'_succ]
      rcases Nat.lt_or_ge (c.seq + 1) U64 with hlt | hge
      · have hmod : (c.seq + 1) % U64 = c.seq + 1 := Nat.mod_eq_of_lt hlt
        rw [hmod]
        have hrec := ih
          { c with
            pending := mapInsert c.seq ({ blankCall with seq := c.seq }) c.pending,
            seq := c.seq + 1 }
          hc hs (by omega : c.seq + 1 + n ≤ U64)
        rw [hrec]
      · have hn : n = 0 := by omega
        subst hn
        rfl

/-- Claim C6: the client's sequence counter starts at 1, and over a run
of `n` successfully registered calls (`n` below the `uint64` wrap bound)
the assigned `Seq` values are exactly `1, 2, ..., n` in order: strictly
increasing, covering exactly the interval `[1, n]`, with no value
reused. -/
theorem seq_assignment_spec (n : Nat) (h : n < U64) :
    newClientCodec.seq = 1
    ∧ (registerN n newClientCodec).2 = List.range' 1 n
    ∧ List.Pairwise (· < ·) (registerN n newClientCodec).2
    ∧ (∀ x, x ∈ (registerN n newClientCodec).2 ↔ 1 ≤ x ∧ x ≤ n) := by
  have hseqs : (registerN n newClientCodec).2 = List.range' 1 n :=
    registerN_seqs n newClientCodec rfl rfl (by show 1 + n ≤ U64; omega)
  refine ⟨rfl, hseqs, ?_, ?_⟩
  · rw [hseqs]
    exact List.pairwise_lt_range' 1 n
  · intro x
    rw [hseqs, List.mem_range'_1]
    omega

/-- Witness for `seq_assignment_spec`: five calls against a fresh client
get seqs 1 through 5. -/
theorem seq_assignment_spec_w :
    (registerN 5 newClientCodec).2 = List.range' 1 5 :=
  (seq_assignment_spec 5 (by norm_num [U64])).2.1

/-- The reflected signature of `Foo2.SumRetMap(args *Args, reply
map[string]map[string]int) error` (`src/unnamed/part_005`): receiver,
then an unnamed pointer argument type, then an unnamed map reply type;
unnamed types have empty `Name()` and `PkgPath()`. -/
def sumRetMapSig : MethodSig :=
  { name := "SumRetMap",
    ins := [ { name := "", pkgPath := "", kind := .ptr },
             { name := "", pkgPath := "", kind := .ptr },
             { name := "", pkgPath := "", kind := .mapKind } ],
    outs := [errorType] }

/-- Counterexample to claim C3 as stated: `registerMethods` performs no
pointer check on the reply type, so the method `SumRetMap`, whose reply
type is a map and not a pointer, is included in the method map rather
than skipped (the registry test exercises exactly this method's
registration). -/
theorem registerMethods_includes_nonpointer_reply :
    ("SumRetMap", sumRetMapSig) ∈ registerMethods [sumRetMapSig]
    ∧ (sumRetMapSig.ins.getD 2 errorType).kind ≠ GoKind.ptr
    ∧ methodEligibleSpec sumRetMapSig = false := by decide

/-- Eligibility in `registerMethods` is exactly: two non-receiver inputs
and one output, the output the `error` type, and both input types
exported or builtin. -/
theorem methodEligible_iff (m : MethodSig) :
    methodEligible m = true ↔ ∃ recv argT replyT out,
      m.ins = [recv, argT, replyT] ∧ m.outs = [out] ∧ out = errorType
      ∧ isExportedOrBuiltinType argT = true ∧ isExportedOrBuiltinType replyT = true := by
  rcases m with ⟨nm, ins, outs⟩
  rcases ins with _ | ⟨i0, _ | ⟨i1, _ | ⟨i2, _ | ⟨i3, irest⟩⟩⟩⟩ <;>
    rcases outs with _ | ⟨o0, _ | ⟨o1, orest⟩⟩ <;>
      simp [methodEligible, and_assoc]

/-- The method map built by `registerMethods` contains exactly the
eligible methods, keyed by their names. -/
theorem mem_registerMethods_iff (ms : List MethodSig) (m : MethodSig) (nm : String) :
    (nm, m) ∈ registerMethods ms ↔ m ∈ ms ∧ methodEligible m = true ∧ nm = m.name := by
  simp only [registerMethods, List.mem_map, List.mem_filter]
  constructor
  · rintro ⟨x, ⟨hmem, helig⟩, heq⟩
    injection heq with h1 h2
    subst h2
    exact ⟨hmem, helig, h1.symm⟩
  · rintro ⟨hmem, helig, rfl⟩
    exact ⟨m, ⟨hmem, helig⟩, rfl⟩

/-- Claim C3 (amended): a method enters the service's method map if and
only if it has exactly two non-receiver inputs and one output, the
output is the `error` type, and both input types are exported or
built-in; the reply type is not required to be a pointer.  Methods
failing these checks are skipped (they are simply absent from the map)
and registration itself does not fail. -/
theorem registerMethods_spec (ms : List MethodSig) (m : MethodSig) (nm : String) :
    ((nm, m) ∈ registerMethods ms ↔ m ∈ ms ∧ methodEligible m = true ∧ nm = m.name)
    ∧ (methodEligible m = true ↔ ∃ recv argT replyT out,
        m.ins = [recv, argT, replyT] ∧ m.outs = [out] ∧ out = errorType
        ∧ isExportedOrBuiltinType argT = true ∧ isExportedOrBuiltinType replyT = true) :=
  ⟨mem_registerMethods_iff ms m nm, methodEligible_iff m⟩

/-- Absence of the separator in the string means `lastIndexOf` finds
nothing (the embedding of `strings.LastIndex` returning -1). -/
theorem lastIndexOf_eq_none_iff (l : List Char) (c : Char) :
    lastIndexOf l c = none ↔ c ∉ l := by
  induction l with
  | nil => simp [lastIndexOf]
  | cons x xs ih =>
      simp only [lastIndexOf]
      cases h : lastIndexOf xs c with
      | some i =>
          have hmem : c ∈ xs := by
            by_contra hc
            simp [ih.mpr hc] at h
          simp [List.mem_cons, hmem]
      | none =>
          have hni : c ∉ xs := ih.mp h
          by_cases hx : x = c
          · simp [hx, List.mem_cons]
          · have hcx : ¬c = x := fun hcx => hx hcx.symm
            simp [hx, List.mem_cons, hni, hcx]

/-- A successful `lastIndexOf` really is the last occurrence: the list
splits there, and the suffix holds no further occurrence. -/
theorem lastIndexOf_split (l : List Char) (c : Char) :
    ∀ i, lastIndexOf l c = some i →
      l = l.take i ++ c :: l.drop (i + 1) ∧ c ∉ l.drop (i + 1) := by
  induction l with
  | nil => intro i h; cases h
  | cons x xs ih =>
      intro i h
      simp only [lastIndexOf] at h
      cases hx : lastIndexOf xs c with
      | some j =>
          rw [hx] at h
          injection h with h
          subst h
          obtain ⟨h1, h2⟩ := ih j hx
          refine ⟨?_, ?_⟩
          · rw [List.take_succ_cons, List.drop_succ_cons]
            exact congrArg (x :: ·) h1
          · rw [List.drop_succ_cons]
            exact h2
      | none =>
          rw [hx] at h
          by_cases hxc : x = c
          · rw [if_pos hxc] at h
            injection h with h
            subst h
            refine ⟨by simp [hxc], by simpa using (lastIndexOf_eq_none_iff xs c).mp hx⟩
          · rw [if_neg hxc] at h
            cases h

/-- Claim C7: `findService` splits `ServiceMethod` at the last dot (the
prefix-dot-suffix decomposition below, with no dot in the suffix); a
string without a dot yields the ill-formed error, an unregistered
service name yields the can't-find-service error, a registered service
without the method yields the can't-find-method error, and otherwise the
service and its method descriptor are returned without error. -/
theorem findService_spec (sm : List (String × Service)) (s : String) :
    ('.' ∉ s.data →
      findService sm s = .error ("rpc server: service/method request ill-formed: " ++ s))
    ∧ (∀ dot, lastIndexOf s.data '.' = some dot →
        s.data = s.data.take dot ++ '.' :: s.data.drop (dot + 1)
        ∧ '.' ∉ s.data.drop (dot + 1)
        ∧ (mapLookup (String.mk (s.data.take dot)) sm = none →
            findService sm s
              = .error ("rpc server: can't find service " ++ String.mk (s.data.take dot)))
        ∧ (∀ svc, mapLookup (String.mk (s.data.take dot)) sm = some svc →
            (mapLookup (String.mk (s.data.drop (dot + 1))) svc.methods = none →
              findService sm s
                = .error ("rpc server: can't find method " ++ String.mk (s.data.drop (dot + 1))))
            ∧ (∀ mt, mapLookup (String.mk (s.data.drop (dot + 1))) svc.methods = some mt →
                findService sm s = .ok (svc, mt)))) := by
  constructor
  · intro h
    have hn : lastIndexOf s.data '.' = none := (lastIndexOf_eq_none_iff _ _).mpr h
    simp [findService, hn]
  · intro dot hdot
    obtain ⟨h1, h2⟩ := lastIndexOf_split s.data '.' dot hdot
    refine ⟨h1, h2, ?_, ?_⟩
    · intro hsvc
      simp [findService, hdot, hsvc]
    · intro svc hsvc
      refine ⟨fun hmt => ?_, fun mt hmt => ?_⟩
      · simp [findService, hdot, hsvc, hmt]
      · simp [findService, hdot, hsvc, hmt]

/-- The reflected signature of `Foo.Sum(args Args, reply *int) error`
as the registry sees it through a pointer receiver. -/
def sumSig : MethodSig :=
  { name := "Sum",
    ins := [ { name := "", pkgPath := "", kind := .ptr },
             { name := "Args", pkgPath := "github.com/yqchilde/gee-rpc", kind := .otherKind },
             { name := "", pkgPath := "", kind := .ptr } ],
    outs := [errorType] }

/-- The registered `Foo` service with its single eligible method `Sum`. -/
def fooService : Service := { sname := "Foo", methods := [("Sum", sumSig)] }

/-- Witness for `findService_spec`: looking up "Foo.Sum" on a map
holding the `Foo` service returns the service and the `Sum` method. -/
theorem findService_spec_w :
    findService [("Foo", fooService)] "Foo.Sum" = .ok (fooService, sumSig) :=
  (((findService_spec [("Foo", fooService)] "Foo.Sum").2 3 (by decide)).2.2.2 fooService
      (by decide)).2 sumSig (by decide)

/-- Claim C9: with a nonempty server list, round-robin `Get` returns
`servers[index % n]` and stores `(index + 1) % n` as the new index,
random `Get` returns an element of the current server list (whatever the
PRNG draws), `Get` on an empty server list errors for every mode, and an
unsupported mode errors. -/
theorem dGet_spec (d : MultiServersDiscovery) (mode rnd : Nat) (h : d.servers ≠ []) :
    dGet d RoundRobinSelect rnd
      = ({ d with index := (d.index + 1) % d.servers.length },
         .ok (d.servers.getD (d.index % d.servers.length) ""))
    ∧ d.servers.getD (d.index % d.servers.length) "" ∈ d.servers
    ∧ (∃ x ∈ d.servers, dGet d RandomSelect rnd = (d, .ok x))
    ∧ (∀ m r, dGet { d with servers := [] } m r
        = ({ d with servers := [] }, .error "rpc discovery: no available servers"))
    ∧ (mode ≠ RandomSelect → mode ≠ RoundRobinSelect →
        dGet d mode rnd = (d, .error "rpc discovery: not supported select mode")) := by
  have hlen : 0 < d.servers.length := List.length_pos.mpr h
  have hne : d.servers.length ≠ 0 := by omega
  have hmem : ∀ k, d.servers.getD (k % d.servers.length) "" ∈ d.servers := by
    intro k
    have hk : k % d.servers.length < d.servers.length := Nat.mod_lt _ hlen
    rw [List.getD_eq_getElem d.servers "" hk]
    exact List.getElem_mem hk
  refine ⟨?_, hmem d.index, ⟨_, hmem rnd, ?_⟩, fun m r => ?_, fun h0 h1 => ?_⟩
  · simp [dGet, hne, RandomSelect, RoundRobinSelect]
  · simp [dGet, hne, RandomSelect]
  · simp [dGet]
  · simp [dGet, hne, RandomSelect, RoundRobinSelect] at h0 h1 ⊢
    simp [h0, h1]

/-- The discovery of the witness below: three servers, round-robin index
4 (the constructor seeds the index randomly, so it can exceed the
length). -/
def cexDiscovery : MultiServersDiscovery := { servers := ["a", "b", "c"], index := 4 }

/-- Witness for `dGet_spec`: on servers `["a", "b", "c"]` with index 4,
round-robin returns `"b"` (position 4 mod 3) and stores index 2, and the
unsupported mode 7 errors. -/
theorem dGet_spec_w :
    dGet cexDiscovery RoundRobinSelect 0 = ({ cexDiscovery with index := 2 }, .ok "b")
    ∧ dGet cexDiscovery 7 0 = (cexDiscovery, .error "rpc discovery: not supported select mode") :=
  ⟨(dGet_spec cexDiscovery 7 0 (by decide)).1,
   (dGet_spec cexDiscovery 7 0 (by decide)).2.2.2.2 (by decide) (by decide)⟩
